import Mathlib

/-!
Verification of the upbot operator's two reconcilers against their
specification.  The Go sources under `internal/controller/` are shallowly
embedded: each reconciler becomes a pure Lean function from its inputs
(the object fetched from the API store, the outcomes of the external
service calls it performs this cycle) to the writes it issues and the
error it returns.  Store reads are modelled by their outcome (found /
not-found); store writes are modelled as succeeding, which is the regime
all the claims below speak about.
-/

namespace Upbot

/-- One rule of an Ingress (`networkingv1.IngressRule`); only the host is
consulted by the operator. -/
structure IngressRule where
  host : String
deriving DecidableEq

/-- One TLS entry of an Ingress (`networkingv1.IngressTLS`); only its
presence is consulted. -/
structure IngressTLS where
  hosts : List String
deriving DecidableEq

/-- The fields of `networkingv1.Ingress` read by the ingress watcher:
object metadata (name, namespace, annotations) and `spec.rules`,
`spec.tls`. -/
structure Ingress where
  name : String
  ns : String
  annotations : List (String × String)
  rules : List IngressRule
  tls : List IngressTLS
deriving DecidableEq

/-- `MonitorSpec` from the CRD: type, target, interval (all strings). -/
structure MonitorSpec where
  type : String
  target : String
  interval : String
deriving DecidableEq

/-- `MonitorStatus`: the opaque external identifier, `""` when the
record has not been created remotely. -/
structure MonitorStatus where
  externalID : String
deriving DecidableEq

/-- The fields of a `Monitor` object the controllers read or write:
metadata (name, namespace, labels, annotations, finalizers, the owner
reference set by `SetControllerReference`, whether `DeletionTimestamp`
is non-zero), spec and status. -/
structure Monitor where
  name : String
  ns : String
  labels : List (String × String)
  annotations : List (String × String)
  finalizers : List String
  ownerRef : Option (String × String)
  deletionTimestamp : Bool
  spec : MonitorSpec
  status : MonitorStatus
deriving DecidableEq

/-! ## Ingress watcher (`ingress_watcher_controller.go`) -/

/-- The cleanup the watcher applies to the `upbot.app/path` annotation,
on the string's character list: add a leading `/` if missing, then drop
one trailing `/` when the result is longer than one character.  The Go
code indexes bytes, but `/` is ASCII, so the byte tests coincide with
these character tests. -/
def cleanPath (cs : List Char) : List Char :=
  let ds := if cs.head? = some '/' then cs else '/' :: cs
  if 1 < ds.length ∧ ds.getLast? = some '/' then ds.dropLast else ds

/-- `getTargetFromIngress`: derive the target URL from the first rule's
host and the presence of TLS entries, then append the cleaned
`upbot.app/path` annotation when it is present and non-empty.  Errors
mirror the Go `fmt.Errorf` messages. -/
def getTargetFromIngress (ingress : Ingress) : Except String String :=
  match ingress.rules with
  | [] => Except.error "no rules found in Ingress"
  | rule :: _ =>
    if rule.host = "" then
      Except.error "no host found in Ingress rule"
    else
      let scheme := if ingress.tls.length = 0 then "http" else "https"
      let target := scheme ++ "://" ++ rule.host
      match ingress.annotations.lookup "upbot.app/path" with
      | some customPath =>
        if customPath ≠ "" then
          Except.ok (target ++ String.mk (cleanPath customPath.data))
        else
          Except.ok target
      | none => Except.ok target

/-- The interval resolution that appears verbatim in both
`createMonitorFromIngress` and `updateMonitorIfNeeded`: a non-empty
`upbot.app/interval` annotation wins, else the reconciler's `Interval`
field (the process-wide flag), else the literal `"30"`. -/
def resolveInterval (configuredInterval : String)
    (annotations : List (String × String)) : String :=
  match annotations.lookup "upbot.app/interval" with
  | some customInterval =>
    if customInterval ≠ "" then customInterval
    else if configuredInterval = "" then "30" else configuredInterval
  | none => if configuredInterval = "" then "30" else configuredInterval

/-- `createMonitorFromIngress`: build the Monitor object the watcher
creates.  The owner reference records
`SetControllerReference(ingress, monitor)`. -/
def createMonitorFromIngress (configuredInterval : String) (ingress : Ingress) :
    Except String Monitor :=
  match getTargetFromIngress ingress with
  | Except.error e => Except.error e
  | Except.ok target =>
    let interval := resolveInterval configuredInterval ingress.annotations
    Except.ok
      { name := ingress.name
        ns := ingress.ns
        annotations :=
          [("upbot.app/auto-generated", "true"),
           ("upbot.app/source-ingress", ingress.ns ++ "/" ++ ingress.name)]
        labels :=
          [("upbot.app/source", "ingress-watcher"),
           ("upbot.app/target-type", "http")]
        finalizers := []
        ownerRef := some (ingress.ns, ingress.name)
        deletionTimestamp := false
        spec := { type := "http", target := target, interval := interval }
        status := { externalID := "" } }

/-- A write the ingress watcher can issue against the API store. -/
inductive RouteWatcherAction where
  | createMonitor (m : Monitor)
  | updateMonitor (m : Monitor)
  | deleteMonitor (ns name : String)
deriving DecidableEq

/-- The ownership check used by `updateMonitorIfNeeded`,
`handleIngressDeletion` and `handleMonitorCleanupForDisabledIngress`:
`monitor.Labels["upbot.app/source"]` equals `"ingress-watcher"` (a
missing key reads as `""` in Go, hence unmanaged). -/
def isManaged (m : Monitor) : Bool :=
  m.labels.lookup "upbot.app/source" == some "ingress-watcher"

/-- The disable check in `Reconcile`: the `upbot.app/monitor`
annotation exists and equals `"false"` or `"disabled"`. -/
def monitorDisabledDirective (ing : Ingress) : Bool :=
  match ing.annotations.lookup "upbot.app/monitor" with
  | some disabled => disabled == "false" || disabled == "disabled"
  | none => false

/-- `updateMonitorIfNeeded`: skip unmanaged Monitors; re-derive the
target (propagating its error) and interval, force the type to
`"http"`, and issue an update only when at least one of the three
fields differs. -/
def updateMonitorIfNeeded (configuredInterval : String) (monitor : Monitor)
    (ingress : Ingress) : List RouteWatcherAction × Except String Unit :=
  if isManaged monitor then
    match getTargetFromIngress ingress with
    | Except.error e => ([], Except.error e)
    | Except.ok expectedTarget =>
      let expectedSpec : MonitorSpec :=
        { type := "http"
          target := expectedTarget
          interval := resolveInterval configuredInterval ingress.annotations }
      if monitor.spec = expectedSpec then ([], Except.ok ())
      else ([RouteWatcherAction.updateMonitor { monitor with spec := expectedSpec }],
            Except.ok ())
  else ([], Except.ok ())

/-- `handleIngressDeletion`: when the Ingress at the request key is
gone, delete the Monitor at that key only if it is present, managed,
and its `upbot.app/source-ingress` annotation matches the key; the
delete call's result (`deleteResult`) is returned as is — the code has
no not-found check on this delete. -/
def handleIngressDeletion (reqNs reqName : String) (monitor? : Option Monitor)
    (deleteResult : Except String Unit) : List RouteWatcherAction × Except String Unit :=
  match monitor? with
  | none => ([], Except.ok ())
  | some monitor =>
    if isManaged monitor then
      if monitor.annotations.lookup "upbot.app/source-ingress" =
          some (reqNs ++ "/" ++ reqName) then
        ([RouteWatcherAction.deleteMonitor monitor.ns monitor.name], deleteResult)
      else ([], Except.ok ())
    else ([], Except.ok ())

/-- `handleMonitorCleanupForDisabledIngress`: when the route carries
the disable directive, delete the Monitor at the key only if it is
present and managed (label check only — no source match on this
path); the delete call's result is returned as is. -/
def handleMonitorCleanupForDisabledIngress (monitor? : Option Monitor)
    (deleteResult : Except String Unit) : List RouteWatcherAction × Except String Unit :=
  match monitor? with
  | none => ([], Except.ok ())
  | some monitor =>
    if isManaged monitor then
      ([RouteWatcherAction.deleteMonitor monitor.ns monitor.name], deleteResult)
    else ([], Except.ok ())

/-- `IngressWatcherReconciler.Reconcile`: given the outcome of the two
store reads (the Ingress at the request key `reqNs/reqName`, the
Monitor at the same key; `none` = not found) and the result the store
would return for a delete call this cycle, return the store writes
issued and the result.  Ingress not found → `handleIngressDeletion`;
disable directive → `handleMonitorCleanupForDisabledIngress`; Monitor
not found → `createMonitorFromIngress`; Monitor found →
`updateMonitorIfNeeded`. -/
def ingressWatcherReconcile (configuredInterval reqNs reqName : String)
    (ingress : Option Ingress) (existingMonitor : Option Monitor)
    (deleteResult : Except String Unit) :
    List RouteWatcherAction × Except String Unit :=
  match ingress with
  | none => handleIngressDeletion reqNs reqName existingMonitor deleteResult
  | some ing =>
    if monitorDisabledDirective ing then
      handleMonitorCleanupForDisabledIngress existingMonitor deleteResult
    else
      match existingMonitor with
      | none =>
        match createMonitorFromIngress configuredInterval ing with
        | Except.error e => ([], Except.error e)
        | Except.ok m => ([RouteWatcherAction.createMonitor m], Except.ok ())
      | some m => updateMonitorIfNeeded configuredInterval m ing

/-! ## Monitor lifecycle reconciler (`monitor_controller.go`) -/

/-- The finalizer string `monitoring.upbot.app/finalizer`. -/
def monitorFinalizer : String := "monitoring.upbot.app/finalizer"

/-- Outcome of the external create call.  `success none` models a nil
response or a response whose `Id` field is nil; `success (some id)`
models `resp.Id = &id`. -/
inductive CreateOutcome where
  | success (id : Option String)
  | failure
deriving DecidableEq

/-- Outcome of the external update call. -/
inductive UpdateOutcome where
  | success
  | failure
deriving DecidableEq

/-- Outcome of the external delete call.  `notFound404` is an error
whose HTTP response carries status 404; `failure` is any other error
(including one with no HTTP response at all). -/
inductive DeleteOutcome where
  | success
  | notFound404
  | failure
deriving DecidableEq

/-- The external-service responses this reconcile would observe were it
to call each endpoint. -/
structure ExtEnv where
  createResp : CreateOutcome
  updateResp : UpdateOutcome
  deleteResp : DeleteOutcome
deriving DecidableEq

/-- A call issued to the external monitoring service, with its payload. -/
inductive ExtCall where
  | create (name : String) (spec : MonitorSpec)
  | update (id : String) (name : String) (spec : MonitorSpec)
  | delete (id : String)
deriving DecidableEq

/-- Whether a call is a create. -/
def ExtCall.isCreate : ExtCall → Bool
  | ExtCall.create _ _ => true
  | _ => false

/-- Result of one reconcile: the Monitor object as persisted afterwards
(`none` when the store held nothing), the external calls issued, and
whether an error was returned to the dispatcher. -/
structure ReconcileOutcome where
  monitor : Option Monitor
  calls : List ExtCall
  isErr : Bool
deriving DecidableEq

/-- `handleDeletion`: finalizer absent → nothing to do; else if
`externalID` set, call external delete, treating a 404 as success and
returning any other error with the finalizer retained; on success
(including 404, or no externalID) remove the finalizer and persist.
`controllerutil.RemoveFinalizer` drops every matching entry. -/
def handleDeletion (env : ExtEnv) (m : Monitor) : ReconcileOutcome :=
  if monitorFinalizer ∈ m.finalizers then
    if m.status.externalID ≠ "" then
      match env.deleteResp with
      | DeleteOutcome.failure =>
        { monitor := some m, calls := [ExtCall.delete m.status.externalID], isErr := true }
      | _ =>
        { monitor :=
            some { m with finalizers := m.finalizers.filter (· ≠ monitorFinalizer) }
          calls := [ExtCall.delete m.status.externalID], isErr := false }
    else
      { monitor :=
          some { m with finalizers := m.finalizers.filter (· ≠ monitorFinalizer) }
        calls := [], isErr := false }
  else
    { monitor := some m, calls := [], isErr := false }

/-- `handleUpdate`: push the full spec to the external service keyed by
the stored identifier.  On failure only log and return the error; the
object (in particular `status.externalID`) is left untouched. -/
def handleUpdate (env : ExtEnv) (m : Monitor) : ReconcileOutcome :=
  { monitor := some m
    calls := [ExtCall.update m.status.externalID m.name m.spec]
    isErr := env.updateResp = UpdateOutcome.failure }

/-- `handleCreateOrUpdate`: if `externalID` is non-empty, delegate to
`handleUpdate`; otherwise call external create.  On failure return the
error; on success write the returned id into status only when the
response and its id are non-nil. -/
def handleCreateOrUpdate (env : ExtEnv) (m : Monitor) : ReconcileOutcome :=
  if m.status.externalID ≠ "" then
    handleUpdate env m
  else
    match env.createResp with
    | CreateOutcome.failure =>
      { monitor := some m, calls := [ExtCall.create m.name m.spec], isErr := true }
    | CreateOutcome.success none =>
      { monitor := some m, calls := [ExtCall.create m.name m.spec], isErr := false }
    | CreateOutcome.success (some id) =>
      { monitor := some { m with status := { externalID := id } }
        calls := [ExtCall.create m.name m.spec], isErr := false }

/-- `MonitorReconciler.Reconcile`: not-found → ignore; deletion
timestamp set → `handleDeletion`; finalizer missing → attach it
(`controllerutil.AddFinalizer` appends), persist, and return with no
other work; otherwise `handleCreateOrUpdate`. -/
def monitorReconcile (env : ExtEnv) (m? : Option Monitor) : ReconcileOutcome :=
  match m? with
  | none => { monitor := none, calls := [], isErr := false }
  | some m =>
    if m.deletionTimestamp then
      handleDeletion env m
    else if monitorFinalizer ∈ m.finalizers then
      handleCreateOrUpdate env m
    else
      { monitor := some { m with finalizers := m.finalizers ++ [monitorFinalizer] }
        calls := [], isErr := false }

/-! ### Executions of the monitor reconciler

An execution interleaves reconciles with the two things the platform
can do between them: mark the object for deletion (set its
DeletionTimestamp) and garbage-collect it once it is marked and its
finalizer list is empty. -/

/-- What happens around one reconcile: the external responses, and
whether a deletion request lands just before it. -/
structure StepEnv where
  ext : ExtEnv
  requestDelete : Bool
deriving DecidableEq

/-- A deletion request sets the deletion timestamp of an existing object. -/
def applyDeleteRequest (rq : Bool) (m? : Option Monitor) : Option Monitor :=
  match m? with
  | none => none
  | some m => some (if rq then { m with deletionTimestamp := true } else m)

/-- The platform removes an object that is marked for deletion and has
no finalizers left. -/
def finalizeRemoval (m? : Option Monitor) : Option Monitor :=
  match m? with
  | none => none
  | some m => if m.deletionTimestamp && m.finalizers.isEmpty then none else some m

/-- One step of an execution: deletion request, reconcile, garbage
collection; returns the new store state and the external calls issued. -/
def traceStep (e : StepEnv) (m? : Option Monitor) : Option Monitor × List ExtCall :=
  let out := monitorReconcile e.ext (applyDeleteRequest e.requestDelete m?)
  (finalizeRemoval out.monitor, out.calls)

/-- Run an execution; returns the final store state and the per-step
call lists, in order. -/
def runTrace : List StepEnv → Option Monitor → Option Monitor × List (List ExtCall)
  | [], m? => (m?, [])
  | e :: rest, m? =>
    let s := traceStep e m?
    let r := runTrace rest s.1
    (r.1, s.2 :: r.2)

/-! ## Concrete fixtures -/

/-- A valid Ingress with no directives: one rule, host set, no TLS. -/
def plainIngress : Ingress :=
  { name := "my-app"
    ns := "default"
    annotations := []
    rules := [{ host := "myapp.example.com" }]
    tls := [] }

/-- The same Ingress with the disable directive `upbot.app/monitor: "false"`. -/
def disabledIngress : Ingress :=
  { plainIngress with annotations := [("upbot.app/monitor", "false")] }

/-- The same Ingress with the path directive `upbot.app/path: "health"`. -/
def pathIngress : Ingress :=
  { plainIngress with annotations := [("upbot.app/path", "health")] }

/-- The same Ingress with the interval directive `upbot.app/interval: "10"`. -/
def intervalIngress : Ingress :=
  { plainIngress with annotations := [("upbot.app/interval", "10")] }

/-- A Monitor carrying the watcher's ownership label (a managed Monitor). -/
def managedMonitor : Monitor :=
  { name := "my-app"
    ns := "default"
    labels := [("upbot.app/source", "ingress-watcher")]
    annotations := [("upbot.app/auto-generated", "true")]
    finalizers := []
    ownerRef := some ("default", "my-app")
    deletionTimestamp := false
    spec := { type := "http", target := "http://myapp.example.com", interval := "30" }
    status := { externalID := "" } }

/-- A freshly created Monitor: no finalizer, no external id, not deleting. -/
def freshMonitor : Monitor :=
  { managedMonitor with finalizers := [] }

/-- A Monitor with the finalizer attached and no external id yet. -/
def armedMonitor : Monitor :=
  { freshMonitor with finalizers := [monitorFinalizer] }

/-- A Monitor with the finalizer attached and an external id recorded. -/
def syncedMonitor : Monitor :=
  { armedMonitor with status := { externalID := "ext-1" } }

/-- A managed Monitor whose `upbot.app/source-ingress` annotation links
it to the key `default/my-app`. -/
def linkedMonitor : Monitor :=
  { managedMonitor with
    annotations :=
      [("upbot.app/auto-generated", "true"),
       ("upbot.app/source-ingress", "default/my-app")] }

/-- An external environment where every call fails. -/
def allFailEnv : ExtEnv :=
  { createResp := CreateOutcome.failure
    updateResp := UpdateOutcome.failure
    deleteResp := DeleteOutcome.failure }

/-! ## Claims -/

/-- The target's path suffix as the specification words it: the
per-route `upbot.app/path` directive normalized — a leading `/` added
if missing, one trailing `/` stripped unless the path is exactly `/` —
and omitted when the directive is absent (an empty directive supplies
no path). -/
def specPathSuffix (annotations : List (String × String)) : String :=
  match annotations.lookup "upbot.app/path" with
  | none => ""
  | some p =>
    if p = "" then ""
    else
      String.mk
        (let q := if p.data.head? = some '/' then p.data else '/' :: p.data
         if q = ['/'] then q
         else if q.getLast? = some '/' then q.dropLast else q)

/-- The watcher's length-based trailing-slash strip agrees with the
specification's "unless the path is exactly `/`" phrasing. -/
theorem strip_trailing_slash_cases (ds : List Char) :
    (if 1 < ds.length ∧ ds.getLast? = some '/' then ds.dropLast else ds) =
      (if ds = ['/'] then ds
       else if ds.getLast? = some '/' then ds.dropLast else ds) := by
  by_cases h1 : ds = ['/']
  · subst h1
    simp
  · by_cases h2 : ds.getLast? = some '/'
    · have hlen : 1 < ds.length := by
        rcases ds with _ | ⟨a, _ | ⟨b, t⟩⟩
        · simp at h2
        · simp at h2
          exact absurd (by rw [h2]) h1
        · simp
      simp [h1, h2, hlen]
    · simp [h1, h2]

/-- C1 counterexample: with the disable directive set, a managed
Monitor present, and the delete call hitting a concurrent not-found,
the reconcile issues the delete but returns the not-found as an error
— it is not treated as success; and with the route absent and a
Monitor that carries the ownership label but no matching
`upbot.app/source-ingress` annotation, nothing is deleted at all. -/
theorem cleanup_claim_counterexample :
    ingressWatcherReconcile "30" "default" "my-app" (some disabledIngress)
        (some managedMonitor) (Except.error "monitor not found") =
      ([RouteWatcherAction.deleteMonitor "default" "my-app"],
       Except.error "monitor not found") ∧
    (ingressWatcherReconcile "30" "default" "my-app" (some disabledIngress)
        (some managedMonitor) (Except.error "monitor not found")).2 ≠
      Except.ok () ∧
    ingressWatcherReconcile "30" "default" "my-app" none (some managedMonitor)
        (Except.ok ()) = ([], Except.ok ()) :=
  ⟨rfl, fun h => Except.noConfusion h, rfl⟩

/-- C1 (amended): when the route is absent or carries the disable
directive, the watcher deletes the Monitor at the key when it is
present and managed — on the route-absent path additionally only when
its `upbot.app/source-ingress` annotation matches the key — and
performs no write when the Monitor is absent, unmanaged, or (route
absent) unlinked; the delete call's outcome, including a concurrent
not-found error, is returned to the caller rather than treated as
success. -/
theorem cleanup_on_absent_or_disabled (cfg reqNs reqName : String)
    (ing : Ingress) (mon : Monitor) (dr : Except String Unit)
    (hdis : monitorDisabledDirective ing = true) :
    ingressWatcherReconcile cfg reqNs reqName (some ing) none dr =
      ([], Except.ok ()) ∧
    (isManaged mon = false →
      ingressWatcherReconcile cfg reqNs reqName (some ing) (some mon) dr =
        ([], Except.ok ()) ∧
      ingressWatcherReconcile cfg reqNs reqName none (some mon) dr =
        ([], Except.ok ())) ∧
    (isManaged mon = true →
      ingressWatcherReconcile cfg reqNs reqName (some ing) (some mon) dr =
        ([RouteWatcherAction.deleteMonitor mon.ns mon.name], dr)) ∧
    ingressWatcherReconcile cfg reqNs reqName none none dr = ([], Except.ok ()) ∧
    (isManaged mon = true →
      mon.annotations.lookup "upbot.app/source-ingress" =
          some (reqNs ++ "/" ++ reqName) →
      ingressWatcherReconcile cfg reqNs reqName none (some mon) dr =
        ([RouteWatcherAction.deleteMonitor mon.ns mon.name], dr)) ∧
    (isManaged mon = true →
      mon.annotations.lookup "upbot.app/source-ingress" ≠
          some (reqNs ++ "/" ++ reqName) →
      ingressWatcherReconcile cfg reqNs reqName none (some mon) dr =
        ([], Except.ok ())) := by
  refine ⟨?_, ?_, ?_, ?_, ?_, ?_⟩
  · simp [ingressWatcherReconcile, hdis, handleMonitorCleanupForDisabledIngress]
  · intro hman
    constructor <;>
      simp [ingressWatcherReconcile, hdis, handleMonitorCleanupForDisabledIngress,
        handleIngressDeletion, hman]
  · intro hman
    simp [ingressWatcherReconcile, hdis, handleMonitorCleanupForDisabledIngress, hman]
  · simp [ingressWatcherReconcile, handleIngressDeletion]
  · intro hman hlink
    simp [ingressWatcherReconcile, handleIngressDeletion, hman, hlink]
  · intro hman hlink
    simp [ingressWatcherReconcile, handleIngressDeletion, hman, hlink]

/-- C1 witness: the disabled route deletes the managed Monitor when
the delete succeeds, and the absent route deletes the linked Monitor. -/
theorem cleanup_on_absent_or_disabled_witness :
    ingressWatcherReconcile "30" "default" "my-app" (some disabledIngress)
        (some managedMonitor) (Except.ok ()) =
      ([RouteWatcherAction.deleteMonitor "default" "my-app"], Except.ok ()) ∧
    ingressWatcherReconcile "30" "default" "my-app" none (some linkedMonitor)
        (Except.ok ()) =
      ([RouteWatcherAction.deleteMonitor "default" "my-app"], Except.ok ()) :=
  ⟨(cleanup_on_absent_or_disabled "30" "default" "my-app" disabledIngress
      managedMonitor (Except.ok ()) (by decide)).2.2.1 (by decide),
   (cleanup_on_absent_or_disabled "30" "default" "my-app" disabledIngress
      linkedMonitor (Except.ok ()) (by decide)).2.2.2.2.1 (by decide) (by decide)⟩

/-- C5: for every route with at least one rule and a non-empty first
host, the derived target is `scheme://host` followed by the normalized
`upbot.app/path` directive, where the scheme is `https` exactly when
TLS entries exist and the suffix follows the specification's
normalization (leading slash added, one trailing slash stripped unless
the path is exactly `/`, omitted when absent or empty). -/
theorem target_scheme_host_path (ing : Ingress) (rule : IngressRule)
    (rest : List IngressRule) (hr : ing.rules = rule :: rest)
    (hh : rule.host ≠ "") :
    getTargetFromIngress ing =
      Except.ok ((if ing.tls = [] then "http" else "https") ++ "://" ++
        rule.host ++ specPathSuffix ing.annotations) := by
  cases hp : ing.annotations.lookup "upbot.app/path" with
  | none =>
    simp [getTargetFromIngress, specPathSuffix, hr, hh, hp, List.length_eq_zero]
  | some p =>
    by_cases hpe : p = ""
    · simp [getTargetFromIngress, specPathSuffix, hr, hh, hp, hpe,
        List.length_eq_zero]
    · simp only [getTargetFromIngress, specPathSuffix, hr, hh, hp, hpe,
        List.length_eq_zero, cleanPath, strip_trailing_slash_cases,
        ite_not, if_neg, ne_eq, not_false_eq_true]
      simp [List.length_eq_zero, String.append_assoc]

/-- C5 witness: the `health` directive on a TLS-free route yields
`http://myapp.example.com/health`. -/
theorem target_scheme_host_path_witness :
    getTargetFromIngress pathIngress =
      Except.ok "http://myapp.example.com/health" :=
  (target_scheme_host_path pathIngress { host := "myapp.example.com" } []
      rfl (by decide)).trans (congrArg Except.ok (by decide))

/-- C6: the created Monitor's interval is the route's non-empty
`upbot.app/interval` directive; otherwise (directive absent or empty)
the configured process default when non-empty; otherwise the literal
`"30"`. -/
theorem interval_resolution (cfg : String) (ing : Ingress) (m : Monitor)
    (hm : createMonitorFromIngress cfg ing = Except.ok m) :
    (∀ d, ing.annotations.lookup "upbot.app/interval" = some d → d ≠ "" →
      m.spec.interval = d) ∧
    ((ing.annotations.lookup "upbot.app/interval" = none ∨
      ing.annotations.lookup "upbot.app/interval" = some "") → cfg ≠ "" →
      m.spec.interval = cfg) ∧
    ((ing.annotations.lookup "upbot.app/interval" = none ∨
      ing.annotations.lookup "upbot.app/interval" = some "") → cfg = "" →
      m.spec.interval = "30") := by
  have hint : m.spec.interval = resolveInterval cfg ing.annotations := by
    unfold createMonitorFromIngress at hm
    cases hg : getTargetFromIngress ing with
    | error e => rw [hg] at hm; exact absurd hm (by simp)
    | ok t =>
      rw [hg] at hm
      injection hm with h
      rw [← h]
  refine ⟨?_, ?_, ?_⟩
  · intro d hd hne
    simp [hint, resolveInterval, hd, hne]
  · intro hcase hcfg
    rcases hcase with hc | hc <;> simp [hint, resolveInterval, hc, hcfg]
  · intro hcase hcfg
    rcases hcase with hc | hc <;> simp [hint, resolveInterval, hc, hcfg]

/-- C6 witness: the per-route `"10"` overrides the process default
`"30"`. -/
theorem interval_resolution_witness :
    ∃ m, createMonitorFromIngress "30" intervalIngress = Except.ok m ∧
      m.spec.interval = "10" :=
  ⟨_, rfl, (interval_resolution "30" intervalIngress _ rfl).1 "10" (by decide)
    (by decide)⟩

/-- C8: every Monitor the watcher creates carries the ownership label
`upbot.app/source=ingress-watcher`, the label
`upbot.app/target-type=http`, the annotation
`upbot.app/auto-generated=true`, the annotation
`upbot.app/source-ingress=<namespace>/<name>` of the originating
route, and an owner link to that route. -/
theorem created_monitor_metadata (cfg : String) (ing : Ingress) (m : Monitor)
    (hm : createMonitorFromIngress cfg ing = Except.ok m) :
    m.labels.lookup "upbot.app/source" = some "ingress-watcher" ∧
    m.labels.lookup "upbot.app/target-type" = some "http" ∧
    m.annotations.lookup "upbot.app/auto-generated" = some "true" ∧
    m.annotations.lookup "upbot.app/source-ingress" =
      some (ing.ns ++ "/" ++ ing.name) ∧
    m.ownerRef = some (ing.ns, ing.name) := by
  unfold createMonitorFromIngress at hm
  cases hg : getTargetFromIngress ing with
  | error e => rw [hg] at hm; exact absurd hm (by simp)
  | ok t =>
    rw [hg] at hm
    injection hm with h
    rw [← h]
    refine ⟨?_, ?_, ?_, ?_, rfl⟩ <;> rfl

/-- C8 witness: the plain fixture's Monitor carries all five pieces of
metadata. -/
theorem created_monitor_metadata_witness :
    ∃ m, createMonitorFromIngress "" plainIngress = Except.ok m ∧
      m.labels.lookup "upbot.app/target-type" = some "http" ∧
      m.annotations.lookup "upbot.app/source-ingress" = some "default/my-app" :=
  ⟨_, rfl, (created_monitor_metadata "" plainIngress _ rfl).2.1,
    ((created_monitor_metadata "" plainIngress _ rfl).2.2.2.1).trans (by decide)⟩

/-- C7: desired-state derivation fails exactly when the route has zero
rules or the first rule's host is empty; whenever derivation runs for
an enabled route (no disable directive), the reconcile creates nothing
and returns that error to the caller — on both the create path and the
managed-update path. -/
theorem validation_error_iff (cfg reqNs reqName : String) (ing : Ingress)
    (dr : Except String Unit) :
    ((∃ e, getTargetFromIngress ing = Except.error e) ↔
      (ing.rules = [] ∨ ing.rules.head?.map IngressRule.host = some "")) ∧
    (∀ e, getTargetFromIngress ing = Except.error e →
      monitorDisabledDirective ing = false →
      ingressWatcherReconcile cfg reqNs reqName (some ing) none dr =
        ([], Except.error e) ∧
      ∀ mon, isManaged mon = true →
        ingressWatcherReconcile cfg reqNs reqName (some ing) (some mon) dr =
          ([], Except.error e)) := by
  constructor
  · cases hr : ing.rules with
    | nil => simp [getTargetFromIngress, hr]
    | cons r rest =>
      by_cases hh : r.host = ""
      · simp [getTargetFromIngress, hr, hh]
      · cases hp : ing.annotations.lookup "upbot.app/path" with
        | none => simp [getTargetFromIngress, hr, hh, hp]
        | some p =>
          by_cases hpe : p = "" <;> simp [getTargetFromIngress, hr, hh, hp, hpe]
  · intro e he hd
    constructor
    · simp [ingressWatcherReconcile, hd, createMonitorFromIngress, he]
    · intro mon hman
      simp [ingressWatcherReconcile, hd, updateMonitorIfNeeded, hman, he]

/-- C7 witness: a route with no rules makes the reconcile return the
validation error and create nothing. -/
theorem validation_error_iff_witness :
    ingressWatcherReconcile "" "default" "my-app"
        (some { plainIngress with rules := [] }) none (Except.ok ()) =
      ([], Except.error "no rules found in Ingress") :=
  ((validation_error_iff "" "default" "my-app" { plainIngress with rules := [] }
      (Except.ok ())).2 "no rules found in Ingress" rfl rfl).1

/-- C2: an external create call is only ever issued for a Monitor that
already carries the finalizer; the reconcile of a fresh Monitor (no
finalizer, not deleting) only attaches the finalizer and persists,
issuing no external call and no error; and in any execution starting
from a fresh Monitor, the first reconcile issues no external call at
all, so any create happens at reconcile two or later. -/
theorem finalizer_before_create (m0 : Monitor)
    (h1 : monitorFinalizer ∉ m0.finalizers) (h2 : m0.deletionTimestamp = false) :
    (∀ env m, (∃ c ∈ (monitorReconcile env (some m)).calls, c.isCreate) →
      monitorFinalizer ∈ m.finalizers) ∧
    (∀ env, monitorReconcile env (some m0) =
      { monitor := some { m0 with finalizers := m0.finalizers ++ [monitorFinalizer] }
        calls := [], isErr := false }) ∧
    (∀ e envs, (runTrace (e :: envs) (some m0)).2.head? = some []) := by
  refine ⟨?_, ?_, ?_⟩
  · intro env m hc
    by_cases hf : monitorFinalizer ∈ m.finalizers
    · exact hf
    · exfalso
      obtain ⟨c, hmem, hcr⟩ := hc
      by_cases hd : m.deletionTimestamp <;>
        simp [monitorReconcile, hd, hf, handleDeletion] at hmem
  · intro env
    simp [monitorReconcile, h1, h2]
  · intro e envs
    by_cases hrq : e.requestDelete <;>
      simp [runTrace, traceStep, applyDeleteRequest, hrq, monitorReconcile,
        handleDeletion, h1, h2]

/-- C2 witness: reconciling the fresh fixture attaches the finalizer
and nothing else, and the first step of an execution from it issues no
external call. -/
theorem finalizer_before_create_witness :
    monitorReconcile allFailEnv (some freshMonitor) =
      { monitor := some { freshMonitor with
          finalizers := freshMonitor.finalizers ++ [monitorFinalizer] }
        calls := [], isErr := false } ∧
    (runTrace [{ ext := allFailEnv, requestDelete := false }]
        (some freshMonitor)).2.head? = some [] :=
  ⟨(finalizer_before_create freshMonitor (by decide) rfl).2.1 allFailEnv,
   (finalizer_before_create freshMonitor (by decide) rfl).2.2
     { ext := allFailEnv, requestDelete := false } []⟩

/-- C3: for a non-deleting Monitor with the finalizer, an external
create is issued iff `status.externalID` is empty; on create success
with an id the id is persisted into status; on create failure the error
is returned and the object is unmodified, so the next reconcile
retries. -/
theorem create_gated_by_externalID (env : ExtEnv) (m : Monitor)
    (hd : m.deletionTimestamp = false) (hf : monitorFinalizer ∈ m.finalizers) :
    ((∃ c ∈ (monitorReconcile env (some m)).calls, c.isCreate) ↔
      m.status.externalID = "") ∧
    (∀ id, m.status.externalID = "" → env.createResp = CreateOutcome.success (some id) →
      monitorReconcile env (some m) =
        { monitor := some { m with status := { externalID := id } }
          calls := [ExtCall.create m.name m.spec], isErr := false }) ∧
    (m.status.externalID = "" → env.createResp = CreateOutcome.failure →
      monitorReconcile env (some m) =
        { monitor := some m, calls := [ExtCall.create m.name m.spec]
          isErr := true }) := by
  refine ⟨⟨?_, ?_⟩, ?_, ?_⟩
  · intro hc
    by_contra hid
    obtain ⟨c, hmem, hcr⟩ := hc
    simp [monitorReconcile, hd, hf, handleCreateOrUpdate, hid, handleUpdate] at hmem
    subst hmem
    simp [ExtCall.isCreate] at hcr
  · intro hid
    refine ⟨ExtCall.create m.name m.spec, ?_, rfl⟩
    cases hcr : env.createResp with
    | failure => simp [monitorReconcile, hd, hf, handleCreateOrUpdate, hid, hcr]
    | success o =>
      cases o <;> simp [monitorReconcile, hd, hf, handleCreateOrUpdate, hid, hcr]
  · intro id hid hcr
    simp [monitorReconcile, hd, hf, handleCreateOrUpdate, hid, hcr]
  · intro hid hcr
    simp [monitorReconcile, hd, hf, handleCreateOrUpdate, hid, hcr]

/-- C3 witness: the armed fixture with a create returning `ext-1` gets
its status set to `ext-1`. -/
theorem create_gated_by_externalID_witness :
    monitorReconcile
      { allFailEnv with createResp := CreateOutcome.success (some "ext-1") }
      (some armedMonitor) =
      { monitor := some { armedMonitor with status := { externalID := "ext-1" } }
        calls := [ExtCall.create armedMonitor.name armedMonitor.spec]
        isErr := false } :=
  (create_gated_by_externalID
    { allFailEnv with createResp := CreateOutcome.success (some "ext-1") }
    armedMonitor rfl (by decide)).2.1 "ext-1" rfl rfl

/-- C4: on a deletion request, the finalizer being absent makes the
reconcile a no-op; with the finalizer present and an externalID, the
external delete is called, a 404 counts as success and removes the
finalizer, any other failure is returned with the finalizer retained;
with no externalID the finalizer is removed without any external
call. -/
theorem deletion_handling (env : ExtEnv) (m : Monitor)
    (hd : m.deletionTimestamp = true) :
    (monitorFinalizer ∉ m.finalizers →
      monitorReconcile env (some m) = { monitor := some m, calls := [], isErr := false }) ∧
    (monitorFinalizer ∈ m.finalizers → m.status.externalID ≠ "" →
      (env.deleteResp = DeleteOutcome.failure →
        monitorReconcile env (some m) =
          { monitor := some m, calls := [ExtCall.delete m.status.externalID]
            isErr := true }) ∧
      (env.deleteResp = DeleteOutcome.success ∨ env.deleteResp = DeleteOutcome.notFound404 →
        monitorReconcile env (some m) =
          { monitor := some { m with finalizers := m.finalizers.filter (· ≠ monitorFinalizer) }
            calls := [ExtCall.delete m.status.externalID], isErr := false })) ∧
    (monitorFinalizer ∈ m.finalizers → m.status.externalID = "" →
      monitorReconcile env (some m) =
        { monitor := some { m with finalizers := m.finalizers.filter (· ≠ monitorFinalizer) }
          calls := [], isErr := false }) := by
  refine ⟨?_, ?_, ?_⟩
  · intro hf
    simp [monitorReconcile, hd, handleDeletion, hf]
  · intro hf hid
    constructor
    · intro hdel
      simp [monitorReconcile, hd, handleDeletion, hf, hid, hdel]
    · intro hdel
      rcases hdel with hdel | hdel <;>
        simp [monitorReconcile, hd, handleDeletion, hf, hid, hdel]
  · intro hf hid
    simp [monitorReconcile, hd, handleDeletion, hf, hid]

/-- C4 witness: a deleting Monitor with external id `ext-1` whose
external delete comes back 404 still gets its finalizer removed. -/
theorem deletion_handling_witness :
    monitorReconcile { allFailEnv with deleteResp := DeleteOutcome.notFound404 }
      (some { syncedMonitor with deletionTimestamp := true }) =
      { monitor := some { syncedMonitor with deletionTimestamp := true, finalizers := [] }
        calls := [ExtCall.delete "ext-1"], isErr := false } :=
  ((deletion_handling { allFailEnv with deleteResp := DeleteOutcome.notFound404 }
      { syncedMonitor with deletionTimestamp := true } rfl).2.1
    (by decide) (by decide)).2 (Or.inr rfl)

/-- C9: for a non-deleting Monitor with the finalizer and a non-empty
`status.externalID`, the reconcile leaves the object exactly as it was,
whatever the update outcome — in particular `externalID` is never
cleared — and an update failure only returns the error alongside the
single update call. -/
theorem update_failure_preserves_externalID (env : ExtEnv) (m : Monitor)
    (hd : m.deletionTimestamp = false) (hf : monitorFinalizer ∈ m.finalizers)
    (hid : m.status.externalID ≠ "") :
    (monitorReconcile env (some m)).monitor = some m ∧
    (env.updateResp = UpdateOutcome.failure →
      monitorReconcile env (some m) =
        { monitor := some m
          calls := [ExtCall.update m.status.externalID m.name m.spec]
          isErr := true }) := by
  constructor
  · simp [monitorReconcile, hd, hf, handleCreateOrUpdate, hid, handleUpdate]
  · intro hu
    simp [monitorReconcile, hd, hf, handleCreateOrUpdate, hid, handleUpdate, hu]

/-- C9 witness: the synced fixture under a failing update keeps
`externalID = "ext-1"` and returns the error. -/
theorem update_failure_preserves_externalID_witness :
    monitorReconcile allFailEnv (some syncedMonitor) =
      { monitor := some syncedMonitor
        calls := [ExtCall.update "ext-1" "my-app" syncedMonitor.spec]
        isErr := true } :=
  (update_failure_preserves_externalID allFailEnv syncedMonitor rfl
    (by decide) (by decide)).2 rfl

/-- C10: when the external create succeeds but its response carries no
identifier, the reconcile returns success without touching status, so
`externalID` stays empty and every subsequent reconcile of the same
Monitor issues another external create call — a duplicate remote
record. -/
theorem nil_create_response_causes_duplicate_create (env : ExtEnv) (m : Monitor)
    (hd : m.deletionTimestamp = false) (hf : monitorFinalizer ∈ m.finalizers)
    (hid : m.status.externalID = "")
    (hcr : env.createResp = CreateOutcome.success none) :
    monitorReconcile env (some m) =
      { monitor := some m, calls := [ExtCall.create m.name m.spec]
        isErr := false } ∧
    (∀ env2, (monitorReconcile env2 ((monitorReconcile env (some m)).monitor)).calls =
      [ExtCall.create m.name m.spec]) ∧
    (runTrace [{ ext := env, requestDelete := false },
        { ext := env, requestDelete := false }] (some m)).2 =
      [[ExtCall.create m.name m.spec], [ExtCall.create m.name m.spec]] := by
  have hstep : monitorReconcile env (some m) =
      { monitor := some m, calls := [ExtCall.create m.name m.spec], isErr := false } := by
    simp [monitorReconcile, hd, hf, handleCreateOrUpdate, hid, hcr]
  refine ⟨hstep, ?_, ?_⟩
  · intro env2
    rw [hstep]
    cases hcr2 : env2.createResp with
    | failure => simp [monitorReconcile, hd, hf, handleCreateOrUpdate, hid, hcr2]
    | success o =>
      cases o <;> simp [monitorReconcile, hd, hf, handleCreateOrUpdate, hid, hcr2]
  · simp [runTrace, traceStep, applyDeleteRequest, finalizeRemoval, hstep, hd]

/-- C10 witness: the armed fixture under a create that succeeds with a
nil id issues a create in each of two consecutive reconciles while
`externalID` stays empty. -/
theorem nil_create_response_causes_duplicate_create_witness :
    (runTrace [{ ext := { allFailEnv with createResp := CreateOutcome.success none }
                 requestDelete := false },
               { ext := { allFailEnv with createResp := CreateOutcome.success none }
                 requestDelete := false }] (some armedMonitor)).2 =
      [[ExtCall.create armedMonitor.name armedMonitor.spec],
       [ExtCall.create armedMonitor.name armedMonitor.spec]] :=
  (nil_create_response_causes_duplicate_create
    { allFailEnv with createResp := CreateOutcome.success none }
    armedMonitor rfl (by decide) rfl rfl).2.2

end Upbot
